import Mathlib

/-!
Verification of the FastAPI stock-data service against its specification.

The definitions below are a shallow embedding of the Python sources:
`app/routes/options.py`, `app/routes/analytics.py`, `app/fetcher.py`,
`app/cache.py` and `app/main.py`.  Pandas data frames are embedded as a
column list plus rows of association lists (a missing key or a NaN cell
both read back as `CVal.nan`, matching how the code only distinguishes
them through `fillna`/`dropna`).  Python floats are idealised as exact
rationals; machine rounding plays no role in any property checked here.
-/

namespace StockSpec

/-- A pandas cell: a numeric value, a string, or NaN (also used for a
missing cell, which pandas reads back as NaN). -/
inductive CVal where
  | num (q : Rat)
  | str (s : String)
  | nan
deriving DecidableEq

/-- One data-frame row: cells keyed by column name. -/
abbrev Row := List (String × CVal)

/-- Reading a cell of a row; a key that is not present reads as NaN,
as pandas yields NaN for a column the row has no value in. -/
def Row.get (r : Row) (c : String) : CVal :=
  match r.find? (fun p => p.1 == c) with
  | some p => p.2
  | none => CVal.nan

/-- A pandas data frame: its column list and its rows. -/
structure DataFrame where
  cols : List String
  rows : List Row
deriving DecidableEq

/-- Numeric reading of a cell (`none` for NaN or a string). -/
def CVal.asNum : CVal → Option Rat
  | .num q => some q
  | _ => none

/-- Numeric cell value after `fillna(0)`. -/
def cellNum (r : Row) (c : String) : Rat := ((r.get c).asNum).getD 0

/-- `df[c].fillna(0).sum()`. -/
def colSumFilled (df : DataFrame) (c : String) : Rat :=
  (df.rows.map (fun r => cellNum r c)).sum

/-- Round to the nearest integer, ties to even — the rounding Python's
built-in `round` applies. -/
def roundHalfEven (q : Rat) : Int :=
  let f := q.floor
  let frac := q - f
  if frac < 1 / 2 then f
  else if 1 / 2 < frac then f + 1
  else if f % 2 = 0 then f else f + 1

/-- Python's `round(x, 2)` on exact rationals. -/
def round2 (q : Rat) : Rat := (roundHalfEven (q * 100) : Rat) / 100

/-- Python's `int(x)`: truncation toward zero. -/
def pyInt (q : Rat) : Int := q.num.tdiv q.den

/-- Result of `calculate_pcr`. -/
structure PcrData where
  pcr_by_oi : Rat
  pcr_by_volume : Rat
deriving DecidableEq

/-- `calculate_pcr` from `app/routes/options.py` (line 69) and its verbatim
copy in `app/routes/analytics.py` (line 36). -/
def calculate_pcr (df : DataFrame) : PcrData :=
  let byOi :=
    if "PE_openInterest" ∈ df.cols ∧ "CE_openInterest" ∈ df.cols then
      let pe := colSumFilled df "PE_openInterest"
      let ce := colSumFilled df "CE_openInterest"
      if 0 < ce then round2 (pe / ce) else 0
    else 0
  let byVol :=
    if "PE_totalTradedVolume" ∈ df.cols ∧ "CE_totalTradedVolume" ∈ df.cols then
      let pe := colSumFilled df "PE_totalTradedVolume"
      let ce := colSumFilled df "CE_totalTradedVolume"
      if 0 < ce then round2 (pe / ce) else 0
    else 0
  ⟨byOi, byVol⟩

/-- Result of `calculate_max_pain`. -/
structure MaxPainResult where
  max_pain_strike : Option Int
  max_loss_value : Int
deriving DecidableEq

/-- `sorted(df['strikePrice'].dropna().unique())`: the distinct numeric
strike values, ascending. -/
def sortedStrikes (df : DataFrame) : List Rat :=
  List.insertionSort (· ≤ ·)
    ((df.rows.filterMap (fun r => (r.get "strikePrice").asNum)).eraseDups)

/-- Fold step of Python's `min(xs, key=...)`: keep the earliest element
whose key is minimal (replacement only on a strictly smaller key). -/
def pickMin : (Rat × Rat) → List (Rat × Rat) → (Rat × Rat)
  | b, [] => b
  | b, y :: ys => pickMin (if y.2 < b.2 then y else b) ys

/-- Python's `min(pairs, key=snd)` returning the earliest minimum, or
`none` on an empty list (the code guards this case separately). -/
def minByFirst : List (Rat × Rat) → Option (Rat × Rat)
  | [] => none
  | x :: xs => some (pickMin x xs)

/-- CE leg of the loss the code sums for a candidate strike: the code
demands both `CE_openInterest` and `CE_lastPrice` columns and drops every
row in which `strikePrice`, `CE_openInterest` or `CE_lastPrice` is NaN
(`df[[...]].dropna()`), although `CE_lastPrice` is never used in the sum.
A string cell in these numeric columns would make the Python comparison
raise; the embedding drops such rows, a case no claim exercises. -/
def ceLoss (df : DataFrame) (k : Rat) : Rat :=
  if "CE_openInterest" ∈ df.cols ∧ "CE_lastPrice" ∈ df.cols then
    (df.rows.filterMap (fun r =>
      match (r.get "strikePrice").asNum, (r.get "CE_openInterest").asNum,
            (r.get "CE_lastPrice").asNum with
      | some s, some oi, some _ => if k < s then some ((s - k) * oi) else none
      | _, _, _ => none)).sum
  else 0

/-- PE leg of the loss the code sums for a candidate strike (mirror of
`ceLoss`, counting rows with strike below the candidate). -/
def peLoss (df : DataFrame) (k : Rat) : Rat :=
  if "PE_openInterest" ∈ df.cols ∧ "PE_lastPrice" ∈ df.cols then
    (df.rows.filterMap (fun r =>
      match (r.get "strikePrice").asNum, (r.get "PE_openInterest").asNum,
            (r.get "PE_lastPrice").asNum with
      | some s, some oi, some _ => if s < k then some ((k - s) * oi) else none
      | _, _, _ => none)).sum
  else 0

/-- `calculate_max_pain` from `app/routes/options.py` (line 93) and its
verbatim copy in `app/routes/analytics.py` (line 60).  The Python dict is
filled in ascending strike order and `min(d, key=d.get)` returns the first
key attaining the minimum, which `minByFirst` models. -/
def calculate_max_pain (df : DataFrame) : MaxPainResult :=
  if "strikePrice" ∈ df.cols then
    let pairs := (sortedStrikes df).map (fun k => (k, ceLoss df k + peLoss df k))
    match minByFirst pairs with
    | none => ⟨none, 0⟩
    | some m => ⟨some (pyInt m.1), pyInt m.2⟩
  else ⟨none, 0⟩

/-- The loss function as the specification words it:
`loss(K) = Σ_{K' > K} (K' - K) * CE_oi(K') + Σ_{K' < K} (K - K') * PE_oi(K')`,
read row-wise (each row contributes its own open interest). -/
def lossSpec (df : DataFrame) (k : Rat) : Rat :=
  (df.rows.filterMap (fun r =>
    match (r.get "strikePrice").asNum with
    | some s => if k < s then some ((s - k) * cellNum r "CE_openInterest") else none
    | none => none)).sum
  + (df.rows.filterMap (fun r =>
    match (r.get "strikePrice").asNum with
    | some s => if s < k then some ((k - s) * cellNum r "PE_openInterest") else none
    | none => none)).sum

/-- All five columns `calculate_max_pain` consults are present. -/
def MaxPainCols (df : DataFrame) : Prop :=
  "strikePrice" ∈ df.cols ∧ "CE_openInterest" ∈ df.cols ∧ "CE_lastPrice" ∈ df.cols ∧
    "PE_openInterest" ∈ df.cols ∧ "PE_lastPrice" ∈ df.cols

instance (df : DataFrame) : Decidable (MaxPainCols df) := by
  unfold MaxPainCols; infer_instance

/-- Every row carries numeric values in the five columns the max-pain
computation reads (so no row is dropped by `dropna`). -/
def NumericRows (df : DataFrame) : Prop :=
  ∀ r ∈ df.rows,
    ((r.get "strikePrice").asNum).isSome ∧ ((r.get "CE_openInterest").asNum).isSome ∧
      ((r.get "CE_lastPrice").asNum).isSome ∧ ((r.get "PE_openInterest").asNum).isSome ∧
      ((r.get "PE_lastPrice").asNum).isSome

instance (df : DataFrame) : Decidable (NumericRows df) := by
  unfold NumericRows; infer_instance

/-- On a data frame with all columns present and all relevant cells
numeric, the per-strike loss the code computes coincides with the loss
of the specification. -/
theorem loss_eq (df : DataFrame) (hc : MaxPainCols df) (hn : NumericRows df) (k : Rat) :
    ceLoss df k + peLoss df k = lossSpec df k := by
  unfold ceLoss peLoss lossSpec
  rw [if_pos ⟨hc.2.1, hc.2.2.1⟩, if_pos ⟨hc.2.2.2.1, hc.2.2.2.2⟩]
  congr 1
  · congr 1
    apply List.filterMap_congr
    intro r hr
    obtain ⟨h1, h2, h3, _, _⟩ := hn r hr
    obtain ⟨s, hs⟩ := Option.isSome_iff_exists.mp h1
    obtain ⟨oi, hoi⟩ := Option.isSome_iff_exists.mp h2
    obtain ⟨lp, hlp⟩ := Option.isSome_iff_exists.mp h3
    simp [hs, hoi, hlp, cellNum]
  · congr 1
    apply List.filterMap_congr
    intro r hr
    obtain ⟨h1, _, _, h4, h5⟩ := hn r hr
    obtain ⟨s, hs⟩ := Option.isSome_iff_exists.mp h1
    obtain ⟨oi, hoi⟩ := Option.isSome_iff_exists.mp h4
    obtain ⟨lp, hlp⟩ := Option.isSome_iff_exists.mp h5
    simp [hs, hoi, hlp, cellNum]

theorem pickMin_basic (l : List (Rat × Rat)) (b : Rat × Rat) :
    (pickMin b l = b ∨ pickMin b l ∈ l) ∧ (pickMin b l).2 ≤ b.2 ∧
      (∀ z ∈ l, (pickMin b l).2 ≤ z.2) ∧ (b.2 ≤ (pickMin b l).2 → pickMin b l = b) := by
  induction l generalizing b with
  | nil => simp [pickMin]
  | cons y ys ih =>
    simp only [pickMin]
    by_cases h : y.2 < b.2
    · rw [if_pos h]
      obtain ⟨m1, m2, m3, _⟩ := ih y
      refine ⟨?_, le_of_lt (lt_of_le_of_lt m2 h), ?_, ?_⟩
      · rcases m1 with h1 | h1
        · exact Or.inr (by rw [h1]; exact List.mem_cons_self _ _)
        · exact Or.inr (List.mem_cons_of_mem _ h1)
      · intro z hz
        rcases List.mem_cons.mp hz with rfl | hz
        · exact m2
        · exact m3 z hz
      · intro hb
        exact absurd (lt_of_le_of_lt (le_trans hb m2) h) (lt_irrefl _)
    · rw [if_neg h]
      push_neg at h
      obtain ⟨m1, m2, m3, m4⟩ := ih b
      refine ⟨?_, m2, ?_, m4⟩
      · rcases m1 with h1 | h1
        · exact Or.inl h1
        · exact Or.inr (List.mem_cons_of_mem _ h1)
      · intro z hz
        rcases List.mem_cons.mp hz with rfl | hz
        · exact le_trans m2 h
        · exact m3 z hz

theorem pickMin_tie (l : List (Rat × Rat)) (b : Rat × Rat) (hb : ∀ z ∈ l, b.1 ≤ z.1)
    (hl : l.Pairwise (fun a c => a.1 ≤ c.1)) :
    ∀ z, (z = b ∨ z ∈ l) → z.2 = (pickMin b l).2 → (pickMin b l).1 ≤ z.1 := by
  induction l generalizing b with
  | nil =>
    intro z hz _
    rcases hz with rfl | h
    · simp [pickMin]
    · cases h
  | cons y ys ih =>
    simp only [pickMin]
    have hby : b.1 ≤ y.1 := hb y (List.mem_cons_self _ _)
    have hys : ∀ z ∈ ys, y.1 ≤ z.1 := fun z hz => (List.pairwise_cons.mp hl).1 z hz
    have hl' : ys.Pairwise (fun a c => a.1 ≤ c.1) := (List.pairwise_cons.mp hl).2
    by_cases h : y.2 < b.2
    · rw [if_pos h]
      intro z hz h2
      rcases hz with hzb | hz
      · have hle : (pickMin y ys).2 ≤ y.2 := (pickMin_basic ys y).2.1
        have hlt : z.2 < b.2 := h2 ▸ lt_of_le_of_lt hle h
        rw [hzb] at hlt
        exact absurd hlt (lt_irrefl _)
      · exact ih y hys hl' z (List.mem_cons.mp hz) h2
    · rw [if_neg h]
      push_neg at h
      have hb' : ∀ z ∈ ys, b.1 ≤ z.1 := fun z hz => hb z (List.mem_cons_of_mem _ hz)
      intro z hz h2
      rcases hz with hzb | hz
      · exact ih b hb' hl' z (Or.inl hzb) h2
      · rcases List.mem_cons.mp hz with hzy | hz
        · have h1 : (pickMin b ys).2 ≤ b.2 := (pickMin_basic ys b).2.1
          have h3 : b.2 ≤ (pickMin b ys).2 := by
            rw [← h2, hzy]; exact h
          rw [(pickMin_basic ys b).2.2.2 h3, hzy]
          exact hby
        · exact ih b hb' hl' z (Or.inr hz) h2

/-- Characterisation of `minByFirst` on a list whose first components are
ascending: it returns a member whose second component is minimal, and on
ties the member with the least first component. -/
theorem minByFirst_spec (p : List (Rat × Rat)) (x : Rat × Rat)
    (hx : minByFirst p = some x) (hp : p.Pairwise (fun a c => a.1 ≤ c.1)) :
    x ∈ p ∧ (∀ z ∈ p, x.2 ≤ z.2) ∧ (∀ z ∈ p, z.2 = x.2 → x.1 ≤ z.1) := by
  cases p with
  | nil => cases hx
  | cons a as =>
    have hxa : x = pickMin a as := by
      simpa [minByFirst] using hx.symm
    subst hxa
    have hb := pickMin_basic as a
    have ht := pickMin_tie as a (fun z hz => (List.pairwise_cons.mp hp).1 z hz)
      (List.pairwise_cons.mp hp).2
    refine ⟨?_, ?_, ?_⟩
    · rcases hb.1 with h1 | h1
      · rw [h1]; exact List.mem_cons_self _ _
      · exact List.mem_cons_of_mem _ h1
    · intro z hz
      rcases List.mem_cons.mp hz with rfl | hz
      · exact hb.2.1
      · exact hb.2.2.1 z hz
    · intro z hz h2
      rcases List.mem_cons.mp hz with rfl | hz
      · exact ht z (Or.inl rfl) h2
      · exact ht z (Or.inr hz) h2

/-- The strike list the code ranges over is ascending. -/
theorem sortedStrikes_sorted (df : DataFrame) :
    (sortedStrikes df).Pairwise (· ≤ ·) :=
  List.sorted_insertionSort (· ≤ ·) _

/-- The two-strike chain of scenario S3:
`{24800: CE_oi=100, PE_oi=0}` and `{24900: CE_oi=0, PE_oi=100}`. -/
def s3Chain : DataFrame :=
  ⟨["strikePrice", "expiryDate", "CE_openInterest", "CE_lastPrice",
      "PE_openInterest", "PE_lastPrice"],
   [[("strikePrice", .num 24800), ("CE_openInterest", .num 100), ("CE_lastPrice", .num 1),
       ("PE_openInterest", .num 0), ("PE_lastPrice", .num 1)],
    [("strikePrice", .num 24900), ("CE_openInterest", .num 0), ("CE_lastPrice", .num 1),
       ("PE_openInterest", .num 100), ("PE_lastPrice", .num 1)]]⟩

/-- A flattened chain with the usual columns but no rows. -/
def emptyChain : DataFrame :=
  ⟨["strikePrice", "expiryDate", "CE_openInterest", "CE_lastPrice",
      "PE_openInterest", "PE_lastPrice"], []⟩

/-- The data frame of the C2 counterexample: a `CE_openInterest` column
with no `CE_lastPrice` column. -/
def cxChain : DataFrame :=
  ⟨["strikePrice", "CE_openInterest"],
   [[("strikePrice", .num 100), ("CE_openInterest", .num 5)],
    [("strikePrice", .num 200), ("CE_openInterest", .num 5)]]⟩

unseal Rat.add Rat.mul Rat.sub Rat.inv

/-- C2 (amended): on a flattened chain that carries all of
`CE_openInterest`, `CE_lastPrice`, `PE_openInterest`, `PE_lastPrice`
and whose rows are numeric in those columns and in `strikePrice`,
`calculate_max_pain` returns the lowest strike of the sorted unique
strike set minimising
`loss(K) = Σ_{K' > K} (K' - K)·CE_oi(K') + Σ_{K' < K} (K - K')·PE_oi(K')`
(read row-wise), reporting strike and loss as integers; an empty strike
set yields `{max_pain_strike: null, max_loss_value: 0}`; the two-strike
S3 chain yields `{max_pain_strike: 24800, max_loss_value: 0}`.
(Without the hypotheses the code's loss deviates from the formula: a
side whose `*_lastPrice` column is absent contributes nothing, and rows
with a NaN in `*_lastPrice` are dropped from the sums.) -/
theorem max_pain_is_argmin :
    (∀ df : DataFrame, MaxPainCols df → NumericRows df →
      (sortedStrikes df = [] ∧ calculate_max_pain df = ⟨none, 0⟩) ∨
      (∃ k, k ∈ sortedStrikes df ∧
        calculate_max_pain df = ⟨some (pyInt k), pyInt (lossSpec df k)⟩ ∧
        (∀ k' ∈ sortedStrikes df, lossSpec df k ≤ lossSpec df k') ∧
        (∀ k' ∈ sortedStrikes df, lossSpec df k' = lossSpec df k → k ≤ k'))) ∧
    calculate_max_pain s3Chain = ⟨some 24800, 0⟩ ∧
    calculate_max_pain emptyChain = ⟨none, 0⟩ := by
  refine ⟨?_, by decide, by decide⟩
  intro df hc hn
  have heq : calculate_max_pain df =
      match minByFirst ((sortedStrikes df).map (fun k => (k, lossSpec df k))) with
      | none => ⟨none, 0⟩
      | some m => ⟨some (pyInt m.1), pyInt m.2⟩ := by
    have hmap : (sortedStrikes df).map (fun k => (k, ceLoss df k + peLoss df k)) =
        (sortedStrikes df).map (fun k => (k, lossSpec df k)) :=
      List.map_congr_left (fun k _ => by rw [loss_eq df hc hn k])
    unfold calculate_max_pain
    rw [if_pos hc.1, hmap]
  by_cases hS : sortedStrikes df = []
  · left
    refine ⟨hS, ?_⟩
    rw [heq, hS]
    rfl
  · right
    obtain ⟨x, hx⟩ : ∃ x,
        minByFirst ((sortedStrikes df).map (fun k => (k, lossSpec df k))) = some x := by
      rcases hp : sortedStrikes df with _ | ⟨a, as⟩
      · exact absurd hp hS
      · exact ⟨_, rfl⟩
    have hpw : ((sortedStrikes df).map (fun k => (k, lossSpec df k))).Pairwise
        (fun a c => a.1 ≤ c.1) :=
      List.pairwise_map.mpr (List.Pairwise.imp (fun hac => hac) (sortedStrikes_sorted df))
    obtain ⟨hmem, hmin, htie⟩ := minByFirst_spec _ x hx hpw
    obtain ⟨k, hk, hkx⟩ := List.mem_map.mp hmem
    refine ⟨k, hk, ?_, ?_, ?_⟩
    · rw [heq, hx, ← hkx]
    · intro k' hk'
      have h := hmin _ (List.mem_map_of_mem (fun k => (k, lossSpec df k)) hk')
      rw [← hkx] at h
      exact h
    · intro k' hk' hl
      have h := htie _ (List.mem_map_of_mem (fun k => (k, lossSpec df k)) hk')
        (by rw [← hkx]; exact hl)
      rw [← hkx] at h
      exact h

/-- Witness for C2: the S3 chain satisfies the hypotheses, and the
amended characterisation holds of it. -/
theorem max_pain_is_argmin_witness :
    MaxPainCols s3Chain ∧ NumericRows s3Chain ∧
      ((sortedStrikes s3Chain = [] ∧ calculate_max_pain s3Chain = ⟨none, 0⟩) ∨
        (∃ k, k ∈ sortedStrikes s3Chain ∧
          calculate_max_pain s3Chain = ⟨some (pyInt k), pyInt (lossSpec s3Chain k)⟩ ∧
          (∀ k' ∈ sortedStrikes s3Chain, lossSpec s3Chain k ≤ lossSpec s3Chain k') ∧
          (∀ k' ∈ sortedStrikes s3Chain, lossSpec s3Chain k' = lossSpec s3Chain k → k ≤ k'))) :=
  ⟨by decide, by decide, max_pain_is_argmin.1 s3Chain (by decide) (by decide)⟩

/-- Counterexample for C2 as stated: on a chain with a `CE_openInterest`
column but no `CE_lastPrice` column, the code returns strike 100 with
loss 0, yet the specification's loss is 500 at 100 and 0 at 200, so the
returned strike does not minimise the stated loss. -/
theorem max_pain_not_argmin_counterexample :
    calculate_max_pain cxChain = ⟨some 100, 0⟩ ∧
      (100 : Rat) ∈ sortedStrikes cxChain ∧ (200 : Rat) ∈ sortedStrikes cxChain ∧
      lossSpec cxChain 100 = 500 ∧ lossSpec cxChain 200 = 0 ∧ ¬ ((500 : Rat) ≤ 0) := by
  refine ⟨by decide, by decide, by decide, by decide, by decide, by norm_num⟩

/-- Every cell of a column reads back as a nonnegative contribution
(NaN and missing cells read as 0).  Open interest and traded volume are
contract counts, so this holds of every chain the service sees. -/
def NonnegCol (df : DataFrame) (c : String) : Prop :=
  ∀ r ∈ df.rows, 0 ≤ cellNum r c

instance (df : DataFrame) (c : String) : Decidable (NonnegCol df c) := by
  unfold NonnegCol; infer_instance

theorem colSumFilled_nonneg (df : DataFrame) (c : String) (h : NonnegCol df c) :
    0 ≤ colSumFilled df c := by
  apply List.sum_nonneg
  intro x hx
  obtain ⟨r, hr, hrx⟩ := List.mem_map.mp hx
  exact hrx ▸ h r hr

theorem calculate_pcr_oi (df : DataFrame) :
    (calculate_pcr df).pcr_by_oi =
      if "PE_openInterest" ∈ df.cols ∧ "CE_openInterest" ∈ df.cols then
        if 0 < colSumFilled df "CE_openInterest" then
          round2 (colSumFilled df "PE_openInterest" / colSumFilled df "CE_openInterest")
        else 0
      else 0 := rfl

theorem calculate_pcr_volume (df : DataFrame) :
    (calculate_pcr df).pcr_by_volume =
      if "PE_totalTradedVolume" ∈ df.cols ∧ "CE_totalTradedVolume" ∈ df.cols then
        if 0 < colSumFilled df "CE_totalTradedVolume" then
          round2 (colSumFilled df "PE_totalTradedVolume" / colSumFilled df "CE_totalTradedVolume")
        else 0
      else 0 := rfl

/-- C6: on any flattened chain whose CE open-interest and traded-volume
cells are nonnegative (they are contract counts), `pcr_by_oi` is the
PE/CE open-interest ratio rounded to two decimals, and exactly `0.0`
whenever the CE total is zero or either open-interest column is missing;
the same rule holds for `pcr_by_volume` over the traded-volume columns.
The result is an exact rational: no NaN or infinity can arise. -/
theorem pcr_zero_denominator_sentinel :
    ∀ df : DataFrame, NonnegCol df "CE_openInterest" →
      NonnegCol df "CE_totalTradedVolume" →
      ((("PE_openInterest" ∈ df.cols ∧ "CE_openInterest" ∈ df.cols) ∧
          colSumFilled df "CE_openInterest" ≠ 0 →
        (calculate_pcr df).pcr_by_oi =
          round2 (colSumFilled df "PE_openInterest" / colSumFilled df "CE_openInterest")) ∧
       (¬("PE_openInterest" ∈ df.cols ∧ "CE_openInterest" ∈ df.cols) ∨
          colSumFilled df "CE_openInterest" = 0 →
        (calculate_pcr df).pcr_by_oi = 0) ∧
       (("PE_totalTradedVolume" ∈ df.cols ∧ "CE_totalTradedVolume" ∈ df.cols) ∧
          colSumFilled df "CE_totalTradedVolume" ≠ 0 →
        (calculate_pcr df).pcr_by_volume =
          round2 (colSumFilled df "PE_totalTradedVolume" /
            colSumFilled df "CE_totalTradedVolume")) ∧
       (¬("PE_totalTradedVolume" ∈ df.cols ∧ "CE_totalTradedVolume" ∈ df.cols) ∨
          colSumFilled df "CE_totalTradedVolume" = 0 →
        (calculate_pcr df).pcr_by_volume = 0)) := by
  intro df h1 h2
  have hce := colSumFilled_nonneg df "CE_openInterest" h1
  have hcv := colSumFilled_nonneg df "CE_totalTradedVolume" h2
  refine ⟨?_, ?_, ?_, ?_⟩
  · intro ⟨hcols, hne⟩
    rw [calculate_pcr_oi, if_pos hcols, if_pos (lt_of_le_of_ne hce (Ne.symm hne))]
  · intro h
    rw [calculate_pcr_oi]
    rcases h with h | h
    · rw [if_neg h]
    · by_cases hcols : "PE_openInterest" ∈ df.cols ∧ "CE_openInterest" ∈ df.cols
      · rw [if_pos hcols, if_neg (by rw [h]; exact lt_irrefl 0)]
      · rw [if_neg hcols]
  · intro ⟨hcols, hne⟩
    rw [calculate_pcr_volume, if_pos hcols, if_pos (lt_of_le_of_ne hcv (Ne.symm hne))]
  · intro h
    rw [calculate_pcr_volume]
    rcases h with h | h
    · rw [if_neg h]
    · by_cases hcols : "PE_totalTradedVolume" ∈ df.cols ∧ "CE_totalTradedVolume" ∈ df.cols
      · rw [if_pos hcols, if_neg (by rw [h]; exact lt_irrefl 0)]
      · rw [if_neg hcols]

/-- The chain of scenario S4: `CE_openInterest` is entirely absent. -/
def s4Chain : DataFrame :=
  ⟨["strikePrice", "PE_openInterest"],
   [[("strikePrice", .num 24800), ("PE_openInterest", .num 70)],
    [("strikePrice", .num 24900), ("PE_openInterest", .num 30)]]⟩

/-- Witness for C6: scenario S4 — with the `CE_openInterest` column
absent, `pcr_by_oi` is exactly 0. -/
theorem pcr_zero_denominator_sentinel_witness :
    NonnegCol s4Chain "CE_openInterest" ∧ NonnegCol s4Chain "CE_totalTradedVolume" ∧
      (calculate_pcr s4Chain).pcr_by_oi = 0 :=
  ⟨by decide, by decide,
    (pcr_zero_denominator_sentinel s4Chain (by decide) (by decide)).2.1
      (Or.inl (by decide))⟩

/-! ## Option-chain acquisition pipeline (`app/routes/options.py`) -/

/-- Python exceptions the pipeline can raise. -/
inductive PyErr where
  | runtime (msg : String)
  | indexError
  | keyError (key : String)
  | httpExc (status : Nat) (detail : String)
deriving DecidableEq

/-- The `CE` or `PE` slot of one element of `records.data`.  The three
states behave differently downstream: a key that is absent from *every*
element leaves `pd.DataFrame(records.data)` without that column, so
`df[side]` in `_expand_side` raises `KeyError`; a present key whose
value is not a dict (e.g. JSON `null`, or an element missing a key that
other elements have, which pandas reads as NaN) merely fails the
`isinstance(x, dict)` filter; a dict is expanded. -/
inductive SideVal where
  | absent
  | nonDict
  | dict (d : Row)
deriving DecidableEq

/-- One element of `records.data` in the upstream response.  Every
element carries `strikePrice` and `expiryDate` (the source raises
before flattening when the former's column is missing, and no claim
exercises an absent `expiryDate`). -/
structure RawRow where
  strikePrice : CVal
  expiryDate : String
  CE : SideVal
  PE : SideVal
deriving DecidableEq

/-- `records` of the upstream response; `underlyingValue` is read with
`.get('underlyingValue', 0)`. -/
structure ChainRecords where
  data : List RawRow
  expiryDates : List String
  underlyingValue : Option Rat
deriving DecidableEq

/-- The upstream option-chain document. -/
structure OptionChainRaw where
  records : ChainRecords
deriving DecidableEq

instance {ε α : Type} [DecidableEq ε] [DecidableEq α] : DecidableEq (Except ε α) := fun x y =>
  match x, y with
  | .ok a, .ok b =>
    if h : a = b then isTrue (by rw [h]) else isFalse (by intro hc; cases hc; exact h rfl)
  | .error a, .error b =>
    if h : a = b then isTrue (by rw [h]) else isFalse (by intro hc; cases hc; exact h rfl)
  | .ok _, .error _ => isFalse (by intro hc; cases hc)
  | .error _, .ok _ => isFalse (by intro hc; cases hc)

/-- `pd.to_numeric(..., errors='coerce')` on a cell.  (A numeric string
would parse in pandas; no claim exercises that case, so it coerces to
NaN here like any other non-number.) -/
def toNumeric : CVal → CVal
  | .num q => .num q
  | _ => .nan

/-- Whether `pd.DataFrame(records.data)` has a column for this side:
pandas creates a column for the union of the elements' keys, so the
column exists iff at least one element of the *full* `records.data`
carries the key (the expiry filter keeps the frame's columns). -/
def hasSideCol (data : List RawRow) (side : RawRow → SideVal) : Bool :=
  data.any (fun r => match side r with
    | .absent => false
    | _ => true)

/-- `_expand_side` (options.py line 18).  `df[side]` raises `KeyError`
when the frame has no such column; otherwise the rows whose value is a
dict are kept, expanded into one row each, and their keys prefixed with
`{side}_`.  An expanded row reads NaN at any expanded column its own
dict lacks, matching `apply(pd.Series)`; when no value is a dict the
expansion is the empty frame. -/
def expandSide (hasCol : Bool) (rows : List RawRow) (side : RawRow → SideVal)
    (sideName : String) : Except PyErr (List String × List Row) :=
  if hasCol then
    let valid := rows.filterMap (fun r => match side r with
      | .dict d => some d
      | _ => none)
    let pre := sideName ++ "_"
    let cols :=
      ((valid.map (fun d => d.map Prod.fst)).flatten).eraseDups.map (fun k => pre ++ k)
    let outRows := valid.map (fun d => d.map (fun p => (pre ++ p.1, p.2)))
    .ok (cols, outRows)
  else .error (.keyError sideName)

/-- `_prepare_option_chain_df` (options.py line 116): coerce strikes to
numeric, filter by the chosen expiry, expand `CE` and `PE` (each raising
`KeyError` if its column is missing from the frame), and glue the
pieces back side by side with `pd.concat(..., axis=1)` after
`reset_index(drop=True)` — so the i-th surviving CE (resp. PE) dict is
attached to the i-th filtered row, whichever row it came from, and rows
beyond the number of surviving dicts read NaN in those columns. -/
def prepare_option_chain_df (resp : OptionChainRaw) (expiry : String) :
    Except PyErr DataFrame :=
  if resp.records.data.isEmpty then
    .error (.runtime "No option chain data returned by NSE.")
  else
    let filtered := resp.records.data.filter (fun r => r.expiryDate == expiry)
    if filtered.isEmpty then .error (.runtime s!"No data for expiry {expiry}")
    else do
      let ce ← expandSide (hasSideCol resp.records.data (fun r => r.CE)) filtered
        (fun r => r.CE) "CE"
      let pe ← expandSide (hasSideCol resp.records.data (fun r => r.PE)) filtered
        (fun r => r.PE) "PE"
      let base := filtered.map (fun r =>
        [("strikePrice", toNumeric r.strikePrice), ("expiryDate", CVal.str r.expiryDate)])
      let rows := (List.range filtered.length).map (fun i =>
        base.getD i [] ++ ce.2.getD i [] ++ pe.2.getD i [])
      .ok ⟨["strikePrice", "expiryDate"] ++ ce.1 ++ pe.1, rows⟩

/-- `bisect.bisect_left` on an ascending list: the number of elements
strictly below the probe. -/
def bisect_left (l : List Rat) (x : Rat) : Nat := (l.takeWhile (fun v => v < x)).length

/-- The numeric strike of a row (rows reaching the sort have one). -/
def rowStrike (r : Row) : Rat := ((r.get "strikePrice").asNum).getD 0

/-- Stable insertion of a row into a strike-sorted list (equal strikes
keep their arrival order, like a stable `sort_values`). -/
def insRow (x : Row) : List Row → List Row
  | [] => [x]
  | y :: ys => if rowStrike x < rowStrike y then x :: y :: ys else y :: insRow x ys

/-- `df.sort_values(['strikePrice'])`, modelled as a stable sort. -/
def sortRows (l : List Row) : List Row := l.foldl (fun acc x => insRow x acc) []

/-- Metadata of a persisted snapshot (the time-stamp field is an
environment input and is not modelled). -/
structure FetchResultMeta where
  indexName : String
  nearestExpiry : String
  underlyingValue : Rat
  atmStrike : Option Int
  selectedStrikesRange : Int × Int
  totalStrikesFetched : Nat
deriving DecidableEq

/-- `_select_strikes_and_save` (options.py line 133), with the two
atomic file writes replaced by returning the data frame that would be
written together with the metadata.  Line 139 of the source evaluates
`strikes[atm_strike_index]` before any bound check, so an underlying
above every strike raises `IndexError`; the embedding surfaces that as
`PyErr.indexError`.  (`selected` is provably nonempty on every path
that reaches the metadata, so the list defaults there are inert.) -/
def select_strikes_and_save (dfp : DataFrame) (resp : OptionChainRaw)
    (indexName expiry : String) (numStrikes : Nat) :
    Except PyErr (DataFrame × FetchResultMeta) :=
  let uv := resp.records.underlyingValue.getD 0
  let strikes := List.insertionSort (· ≤ ·)
    ((dfp.rows.filterMap (fun r => (r.get "strikePrice").asNum)).eraseDups)
  if strikes.isEmpty then .error (.runtime "No strikes found after processing")
  else
    let i0 := bisect_left strikes uv
    if 0 < i0 ∧ strikes.length ≤ i0 then .error .indexError
    else
      let atm := if 0 < i0 ∧ |strikes.getD (i0 - 1) 0 - uv| < |strikes.getD i0 0 - uv| then
        i0 - 1 else i0
      let low := atm - numStrikes
      let high := min (strikes.length - 1) (atm + numStrikes)
      let selected := (strikes.drop low).take (high + 1 - low)
      let dfFinal : DataFrame :=
        ⟨dfp.cols, sortRows (dfp.rows.filter (fun r =>
          match (r.get "strikePrice").asNum with
          | some s => selected.contains s
          | none => false))⟩
      .ok (dfFinal,
        { indexName := indexName
          nearestExpiry := expiry
          underlyingValue := uv
          atmStrike := if atm < strikes.length then some (pyInt (strikes.getD atm 0)) else none
          selectedStrikesRange := (pyInt (selected.headD 0), pyInt (selected.getLastD 0))
          totalStrikesFetched := dfFinal.rows.length })

/-- `fetch_and_save_option_chain` (options.py line 163), with the
upstream response passed in instead of fetched over the network. -/
def fetch_and_save_option_chain (resp : OptionChainRaw) (indexName : String)
    (numStrikes : Nat) : Except PyErr (DataFrame × FetchResultMeta) :=
  match resp.records.expiryDates with
  | [] => .error (.runtime "No expiries in NSE response.")
  | nearest :: _ => do
    let dfp ← prepare_option_chain_df resp nearest
    select_strikes_and_save dfp resp indexName nearest numStrikes

/-- `fetch_specific_expiry_option_chain` (options.py line 176): a
caller-supplied expiry absent from the upstream list raises
`HTTPException(status_code=422, ...)`. -/
def fetch_specific_expiry_option_chain (resp : OptionChainRaw) (indexName expiry : String)
    (numStrikes : Nat) : Except PyErr (DataFrame × FetchResultMeta) :=
  if expiry ∈ resp.records.expiryDates then do
    let dfp ← prepare_option_chain_df resp expiry
    select_strikes_and_save dfp resp indexName expiry numStrikes
  else
    .error (.httpExc 422 "Expiry not available")

/-- `_normalize_index_name` (options.py line 42). -/
def normalize_index_name (index : String) : String :=
  if index = "" then ""
  else
    let s := index.trim.toUpper
    if s = "NIFTY50" ∨ s = "NIFTY" ∨ s = "NSEI" then "NIFTY"
    else if s = "BANKNIFTY" ∨ s = "NSEBANK" then "BANKNIFTY"
    else if s = "SENSEX" ∨ s = "BSESN" then "SENSEX"
    else if s = "BANKEX" ∨ s = "BSEBANK" then "BANKEX"
    else if s = "AUTO" ∨ s = "CNXAUTO" then "AUTO"
    else if s = "FINANCE" ∨ s = "CNXFIN" then "FINANCE"
    else if s = "IT" ∨ s = "CNXIT" then "IT"
    else if s = "METAL" ∨ s = "CNXMETAL" then "METAL"
    else if s = "PHARMA" ∨ s = "CNXPHARMA" then "PHARMA"
    else if s = "REALTY" ∨ s = "CNXREALTY" then "REALTY"
    else s

/-- The HTTP handler `api_fetch_options_expiry` (options.py line 294):
an `HTTPException` propagates with its own status; any other exception
becomes a 500. -/
def api_fetch_options_expiry (resp : OptionChainRaw) (index expiry : String)
    (numStrikes : Nat) : Except (Nat × String) FetchResultMeta :=
  match fetch_specific_expiry_option_chain resp (normalize_index_name index) expiry
      numStrikes with
  | .ok p => .ok p.2
  | .error (.httpExc s d) => .error (s, d)
  | .error (.runtime m) => .error (500, m)
  | .error .indexError => .error (500, "list index out of range")
  | .error (.keyError k) => .error (500, k)

/-- One upstream row of scenario S2: strike `24000 + 25·i`, nearest
expiry, with CE and PE sub-records. -/
def s2Row (i : Nat) : RawRow :=
  { strikePrice := .num (24000 + 25 * (i : Rat))
    expiryDate := "16-Sep-2025"
    CE := .dict [("openInterest", .num 100), ("lastPrice", .num 10)]
    PE := .dict [("openInterest", .num 150), ("lastPrice", .num 12)] }

/-- The upstream response of scenario S2: `underlyingValue = 24875`,
expiries `["16-Sep-2025", "23-Sep-2025"]`, strikes 24000 to 26000 in
steps of 25, all under the nearest expiry. -/
def s2Raw : OptionChainRaw :=
  ⟨⟨(List.range 81).map s2Row, ["16-Sep-2025", "23-Sep-2025"], some 24875⟩⟩

/-- C1: fetching the S2 chain with index NIFTY and `num_strikes = 5`
selects ATM strike 24875, persists exactly the 11 rows with strikes
24750 through 25000 in ascending strike order (all under the nearest
expiry), and returns metadata with `atmStrike = 24875`,
`selectedStrikesRange = [24750, 25000]` and `totalStrikesFetched = 11`. -/
theorem fetch_s2_selects_atm_band :
    (fetch_and_save_option_chain s2Raw "NIFTY" 5).map (fun p =>
      (p.1.rows.map (fun r => (r.get "strikePrice").asNum),
       p.1.rows.all (fun r => r.get "expiryDate" == CVal.str "16-Sep-2025"),
       p.2.atmStrike, p.2.selectedStrikesRange, p.2.totalStrikesFetched)) =
    .ok ((List.range 11).map (fun i => some (24750 + 25 * (i : Rat))), true,
      some 24875, (24750, 25000), 11) := by decide

/-- The raw chain exhibiting the flattening misalignment.  Under the
nearest expiry, the strike-100 element has neither a `CE` nor a `PE`
key and the strike-200 element has a `CE` dict; a strike-300 element of
the later expiry carries both dicts, so the frame built from
`records.data` has the `CE` and `PE` columns (pandas takes the union of
keys over all elements) and `_expand_side` raises no `KeyError` — the
keyless elements simply read NaN in those columns. -/
def c3Raw : OptionChainRaw :=
  ⟨⟨[⟨.num 100, "16-Sep-2025", .absent, .absent⟩,
     ⟨.num 200, "16-Sep-2025", .dict [("openInterest", .num 7)], .absent⟩,
     ⟨.num 300, "23-Sep-2025", .dict [("openInterest", .num 9)],
       .dict [("openInterest", .num 4)]⟩],
    ["16-Sep-2025", "23-Sep-2025"], some 150⟩⟩

/-- C3: evaluation at the failing input.  Flattening at the nearest
expiry, the strike-100 element has neither CE nor PE, yet its row is
retained (the claim says such rows are dropped), and — because of
`reset_index(drop=True)` before `pd.concat(..., axis=1)` — that row
carries `CE_openInterest = 7`, the value belonging to the strike-200
element, while the strike-200 row reads NaN there. -/
theorem flatten_misaligns_rows :
    (prepare_option_chain_df c3Raw "16-Sep-2025").map (fun df =>
      df.rows.map (fun r =>
        ((r.get "strikePrice").asNum, (r.get "CE_openInterest").asNum))) =
    .ok [(some 100, some 7), (some 200, none)] := by decide

/-- A processed frame with strikes 100 and 200 only. -/
def c4Df : DataFrame :=
  ⟨["strikePrice", "expiryDate"],
   [[("strikePrice", .num 100)], [("strikePrice", .num 200)]]⟩

/-- An upstream response whose underlying value 300 lies above every
strike of `c4Df`. -/
def c4RespHigh : OptionChainRaw := ⟨⟨[], [], some 300⟩⟩

/-- An upstream response whose underlying value 50 lies below every
strike of `c4Df`. -/
def c4RespLow : OptionChainRaw := ⟨⟨[], [], some 50⟩⟩

/-- C4: evaluation at the failing input.  With the underlying (300)
above every strike, `bisect_left` returns `len(strikes)` and line 139
of options.py indexes `strikes[atm_strike_index]` out of range: the
selection raises `IndexError` instead of returning a truncated window.
(With the underlying below every strike the truncated window
`[100, 200]` is returned, as the claim says.) -/
theorem atm_above_all_strikes_raises :
    select_strikes_and_save c4Df c4RespHigh "NIFTY" "16-Sep-2025" 5 = .error .indexError ∧
      (select_strikes_and_save c4Df c4RespLow "NIFTY" "16-Sep-2025" 5).map
        (fun p => p.2.selectedStrikesRange) = .ok (100, 200) := by decide

/-- C5 (amended): a caller-supplied expiry absent from the upstream
expiry list makes `POST /options/fetch/expiry` fail with HTTP status
422 (unprocessable entity) — not 404: the inner function raises
`HTTPException(422, ...)` and the handler re-raises it unchanged. -/
theorem fetch_absent_expiry_is_422 :
    ∀ (resp : OptionChainRaw) (index expiry : String) (numStrikes : Nat),
      expiry ∉ resp.records.expiryDates →
      api_fetch_options_expiry resp index expiry numStrikes =
        .error (422, "Expiry not available") := by
  intro resp index expiry numStrikes h
  unfold api_fetch_options_expiry fetch_specific_expiry_option_chain
  rw [if_neg h]

/-- The upstream response of the C5 counterexample: only one expiry. -/
def c5Resp : OptionChainRaw := ⟨⟨[], ["16-Sep-2025"], none⟩⟩

/-- Witness for C5: requesting the absent expiry `23-Sep-2025` yields
the 422 error. -/
theorem fetch_absent_expiry_is_422_witness :
    "23-Sep-2025" ∉ c5Resp.records.expiryDates ∧
      api_fetch_options_expiry c5Resp "NIFTY" "23-Sep-2025" 5 =
        .error (422, "Expiry not available") :=
  ⟨by decide, fetch_absent_expiry_is_422 c5Resp "NIFTY" "23-Sep-2025" 5 (by decide)⟩

/-- The HTTP status of a handler outcome (`none` on success). -/
def httpStatus {α : Type} : Except (Nat × String) α → Option Nat
  | .error e => some e.1
  | .ok _ => none

/-- Counterexample for C5 as stated: the failure status for an absent
expiry is 422, not the claimed 404. -/
theorem fetch_absent_expiry_not_404 :
    httpStatus (api_fetch_options_expiry c5Resp "NIFTY" "23-Sep-2025" 5) = some 422 ∧
      httpStatus (api_fetch_options_expiry c5Resp "NIFTY" "23-Sep-2025" 5) ≠ some 404 := by
  refine ⟨by decide, by decide⟩

/-! ## Snapshot filenames and their ordering -/

/-- The code points of a string (Python compares strings point-wise). -/
def codePoints (s : String) : List Nat := s.data.map Char.toNat

/-- `str(expiry).replace(' ', '_').replace('/', '-')` on code points. -/
def safeExpiry (e : String) : List Nat :=
  (codePoints e).map (fun c => if c = 32 then 95 else if c = 47 then 45 else c)

/-- A wall-clock second, as produced by
`datetime.now().strftime("%Y-%m-%d_%H-%M-%S")`. -/
structure Timestamp where
  year : Nat
  month : Nat
  day : Nat
  hour : Nat
  minute : Nat
  second : Nat
deriving DecidableEq

/-- Field bounds under which the `strftime` format is faithful (the
two-digit fields are below 100, the year below 10000). -/
def Timestamp.Valid (t : Timestamp) : Prop :=
  t.year < 10000 ∧ t.month < 100 ∧ t.day < 100 ∧ t.hour < 100 ∧ t.minute < 100 ∧
    t.second < 100

instance (t : Timestamp) : Decidable t.Valid := by
  unfold Timestamp.Valid; infer_instance

/-- Radix-100 encoding of a timestamp: chronological order of valid
timestamps is exactly the order of their keys. -/
def Timestamp.key (t : Timestamp) : Nat :=
  ((((t.year * 100 + t.month) * 100 + t.day) * 100 + t.hour) * 100 + t.minute) * 100 +
    t.second

/-- Two zero-padded decimal digits (code points) of a number below 100. -/
def pad2 (n : Nat) : List Nat := [48 + n / 10, 48 + n % 10]

/-- Four zero-padded decimal digits of a number below 10000. -/
def pad4 (n : Nat) : List Nat := pad2 (n / 100) ++ pad2 (n % 100)

/-- `strftime("%Y-%m-%d_%H-%M-%S")` as code points (45 is `-`, 95 `_`). -/
def fmtTimestamp (t : Timestamp) : List Nat :=
  pad4 t.year ++ (45 :: (pad2 t.month ++ (45 :: (pad2 t.day ++ (95 :: (pad2 t.hour ++
    (45 :: (pad2 t.minute ++ (45 :: pad2 t.second)))))))))

/-- ASCII lowering of a code point (`str.lower()` on the ASCII index
names the service uses). -/
def lowerCP (c : Nat) : Nat := if 65 ≤ c ∧ c ≤ 90 then c + 32 else c

/-- The base filename `_select_strikes_and_save` builds (options.py
line 147): `{index.lower()}_option_chain_{safe_expiry}_{timestamp}`. -/
def base_filename (index expiry : String) (t : Timestamp) : List Nat :=
  (codePoints index).map lowerCP ++ (codePoints "_option_chain_" ++
    (safeExpiry expiry ++ (95 :: fmtTimestamp t)))

/-- Strict lexicographic comparison of code-point lists — how Python's
`sorted` compares the filenames. -/
def lexLt : List Nat → List Nat → Bool
  | _, [] => false
  | [], _ :: _ => true
  | a :: as, b :: bs => if a < b then true else if b < a then false else lexLt as bs

theorem lexLt_cons_same (x : Nat) (as bs : List Nat) :
    lexLt (x :: as) (x :: bs) = lexLt as bs := by
  simp [lexLt]

theorem lexLt_append_same_left (xs as bs : List Nat) :
    lexLt (xs ++ as) (xs ++ bs) = lexLt as bs := by
  induction xs with
  | nil => rfl
  | cons x xs ih => rw [List.cons_append, List.cons_append, lexLt_cons_same, ih]

theorem lexLt_append_of_lt (as bs cs ds : List Nat) (hlen : as.length = bs.length)
    (h : lexLt as bs = true) : lexLt (as ++ cs) (bs ++ ds) = true := by
  induction as generalizing bs with
  | nil =>
    cases bs with
    | nil => cases h
    | cons b bs => cases hlen
  | cons a as ih =>
    cases bs with
    | nil => cases h
    | cons b bs =>
      simp only [lexLt, List.cons_append] at h ⊢
      by_cases h1 : a < b
      · rw [if_pos h1]
      · rw [if_neg h1] at h ⊢
        by_cases h2 : b < a
        · rw [if_pos h2] at h
          cases h
        · rw [if_neg h2] at h ⊢
          exact ih bs (by simpa using hlen) h

theorem pad2_lt (a b : Nat) (hab : a < b) (_hb : b < 100) :
    lexLt (pad2 a) (pad2 b) = true := by
  simp only [pad2, lexLt]
  split_ifs <;> first | rfl | omega

theorem pad4_lt (a b : Nat) (hab : a < b) (hb : b < 10000) :
    lexLt (pad4 a) (pad4 b) = true := by
  rcases Nat.lt_or_ge (a / 100) (b / 100) with h | h
  · exact lexLt_append_of_lt _ _ _ _ rfl (pad2_lt _ _ h (by omega))
  · have hd : a / 100 = b / 100 :=
      Nat.le_antisymm (Nat.div_le_div_right (Nat.le_of_lt hab)) h
    unfold pad4
    rw [hd, lexLt_append_same_left]
    exact pad2_lt _ _ (by omega) (by omega)

theorem fmtTimestamp_lt (t1 t2 : Timestamp) (h1 : t1.Valid) (h2 : t2.Valid)
    (hk : t1.key < t2.key) : lexLt (fmtTimestamp t1) (fmtTimestamp t2) = true := by
  obtain ⟨hy1, hmo1, hd1, hh1, hmi1, hs1⟩ := h1
  obtain ⟨hy2, hmo2, hd2, hh2, hmi2, hs2⟩ := h2
  simp only [Timestamp.key] at hk
  unfold fmtTimestamp
  rcases Nat.lt_trichotomy t1.year t2.year with h | h | h
  · exact lexLt_append_of_lt _ _ _ _ (by simp [pad4, pad2]) (pad4_lt _ _ h hy2)
  · rw [h, lexLt_append_same_left, lexLt_cons_same]
    rcases Nat.lt_trichotomy t1.month t2.month with hm | hm | hm
    · exact lexLt_append_of_lt _ _ _ _ rfl (pad2_lt _ _ hm hmo2)
    · rw [hm, lexLt_append_same_left, lexLt_cons_same]
      rcases Nat.lt_trichotomy t1.day t2.day with hd | hd | hd
      · exact lexLt_append_of_lt _ _ _ _ rfl (pad2_lt _ _ hd hd2)
      · rw [hd, lexLt_append_same_left, lexLt_cons_same]
        rcases Nat.lt_trichotomy t1.hour t2.hour with hh | hh | hh
        · exact lexLt_append_of_lt _ _ _ _ rfl (pad2_lt _ _ hh hh2)
        · rw [hh, lexLt_append_same_left, lexLt_cons_same]
          rcases Nat.lt_trichotomy t1.minute t2.minute with hmi | hmi | hmi
          · exact lexLt_append_of_lt _ _ _ _ rfl (pad2_lt _ _ hmi hmi2)
          · rw [hmi, lexLt_append_same_left, lexLt_cons_same]
            have hsec : t1.second < t2.second := by omega
            exact pad2_lt _ _ hsec hs2
          · omega
        · omega
      · omega
    · omega
  · omega

/-- C7 (amended): among snapshots of the same index *and the same
expiry*, the one written at a chronologically later second has the
lexicographically greater filename, so latest-by-lexicographic-order
equals latest-by-time within one expiry.  (Across different expiries of
the same index the claim fails: the expiry precedes the timestamp in
the filename, see the counterexample.) -/
theorem later_snapshot_has_greater_filename :
    ∀ (index expiry : String) (t1 t2 : Timestamp), t1.Valid → t2.Valid →
      t1.key < t2.key →
      lexLt (base_filename index expiry t1) (base_filename index expiry t2) = true := by
  intro index expiry t1 t2 h1 h2 hk
  unfold base_filename
  rw [lexLt_append_same_left, lexLt_append_same_left, lexLt_append_same_left,
    lexLt_cons_same]
  exact fmtTimestamp_lt t1 t2 h1 h2 hk

/-- Witness for C7: two same-index same-expiry snapshots a day apart. -/
theorem later_snapshot_has_greater_filename_witness :
    (Timestamp.mk 2025 9 16 10 0 0).Valid ∧ (Timestamp.mk 2025 9 17 10 0 0).Valid ∧
      (Timestamp.mk 2025 9 16 10 0 0).key < (Timestamp.mk 2025 9 17 10 0 0).key ∧
      lexLt (base_filename "NIFTY" "16-Sep-2025" ⟨2025, 9, 16, 10, 0, 0⟩)
        (base_filename "NIFTY" "16-Sep-2025" ⟨2025, 9, 17, 10, 0, 0⟩) = true :=
  ⟨by decide, by decide, by decide,
    later_snapshot_has_greater_filename "NIFTY" "16-Sep-2025" _ _ (by decide) (by decide)
      (by decide)⟩

/-- Counterexample for C7 as stated: for the same index NIFTY, a
snapshot of expiry `16-Sep-2025` written on Sep 17 is chronologically
later than a snapshot of expiry `23-Sep-2025` written on Sep 16, yet
its filename is lexicographically *smaller* (the expiry field precedes
the timestamp in the filename), so latest-by-lexicographic-order picks
the older file. -/
theorem later_snapshot_smaller_filename_counterexample :
    (Timestamp.mk 2025 9 16 10 0 0).key < (Timestamp.mk 2025 9 17 10 0 0).key ∧
      lexLt (base_filename "NIFTY" "16-Sep-2025" ⟨2025, 9, 17, 10, 0, 0⟩)
        (base_filename "NIFTY" "23-Sep-2025" ⟨2025, 9, 16, 10, 0, 0⟩) = true ∧
      lexLt (base_filename "NIFTY" "23-Sep-2025" ⟨2025, 9, 16, 10, 0, 0⟩)
        (base_filename "NIFTY" "16-Sep-2025" ⟨2025, 9, 17, 10, 0, 0⟩) = false := by
  refine ⟨by decide, by decide, by decide⟩

/-! ## Subscriptions (`app/main.py`, `app/fetcher.py`) -/

/-- ASCII upper-casing of one character (`str.upper()` restricted to
the ASCII symbols the service handles). -/
def upperChar (c : Char) : Char :=
  if 97 ≤ c.toNat ∧ c.toNat ≤ 122 then Char.ofNat (c.toNat - 32) else c

/-- `str.upper()`. -/
def pyUpper (s : String) : String := ⟨s.data.map upperChar⟩

/-- ASCII whitespace, as stripped by `str.strip()`. -/
def isSpaceChar (c : Char) : Bool :=
  c == ' ' || c == '\t' || c == '\n' || c == '\r'

/-- `str.strip()`. -/
def pyStrip (s : String) : String :=
  ⟨((s.data.dropWhile isSpaceChar).reverse.dropWhile isSpaceChar).reverse⟩

/-- The `POST /subscribe` handler (main.py line 113): upper-case the
stripped symbol, and append it only when it is not yet subscribed. -/
def subscribe_symbol (subs : List String) (sym : String) : List String :=
  let s := pyUpper (pyStrip sym)
  if s ∈ subs then subs else subs ++ [s]

/-- The persisted subscription document `{"symbols": [...]}`. -/
structure SubsDoc where
  symbols : List String
deriving DecidableEq

/-- `save_subscriptions` (fetcher.py line 60): dump the list as-is. -/
def save_subscriptions (symbols : List String) : SubsDoc := ⟨symbols⟩

/-- C8: subscribing is idempotent after strip/upper-case — two
consecutive subscriptions of `"infy.ns"` to a list not yet containing
`INFY.NS` leave exactly one `INFY.NS` entry, in the list and in the
persisted document; and a duplicate-free subscription list stays
duplicate-free under any subscription. -/
theorem subscribe_is_idempotent :
    (∀ subs : List String, "INFY.NS" ∉ subs →
      (subscribe_symbol (subscribe_symbol subs "infy.ns") "infy.ns").count "INFY.NS" = 1 ∧
        (save_subscriptions
          (subscribe_symbol (subscribe_symbol subs "infy.ns") "infy.ns")).symbols.count
            "INFY.NS" = 1) ∧
    (∀ (subs : List String) (sym : String), subs.Nodup → (subscribe_symbol subs sym).Nodup) := by
  constructor
  · intro subs h
    have hs : pyUpper (pyStrip "infy.ns") = "INFY.NS" := by decide
    have h1 : subscribe_symbol subs "infy.ns" = subs ++ ["INFY.NS"] := by
      unfold subscribe_symbol
      rw [hs, if_neg h]
    have h2 : subscribe_symbol (subs ++ ["INFY.NS"]) "infy.ns" = subs ++ ["INFY.NS"] := by
      unfold subscribe_symbol
      rw [hs, if_pos (List.mem_append_right _ (List.mem_singleton_self _))]
    have hcount : (subs ++ ["INFY.NS"]).count "INFY.NS" = 1 := by
      rw [List.count_append, List.count_eq_zero.mpr h]
      rfl
    rw [h1, h2]
    exact ⟨hcount, hcount⟩
  · intro subs sym hn
    unfold subscribe_symbol
    by_cases h : pyUpper (pyStrip sym) ∈ subs
    · rw [if_pos h]
      exact hn
    · rw [if_neg h]
      simp [List.nodup_append, hn, h]

/-- Witness for C8: starting from the empty list, the double
subscription leaves the single entry `INFY.NS`. -/
theorem subscribe_is_idempotent_witness :
    "INFY.NS" ∉ ([] : List String) ∧
      (subscribe_symbol (subscribe_symbol [] "infy.ns") "infy.ns").count "INFY.NS" = 1 ∧
      (save_subscriptions
        (subscribe_symbol (subscribe_symbol [] "infy.ns") "infy.ns")).symbols.count
          "INFY.NS" = 1 :=
  ⟨by decide, (subscribe_is_idempotent.1 [] (by decide)).1,
    (subscribe_is_idempotent.1 [] (by decide)).2⟩

/-! ## Poller pass (`app/fetcher.py` line 80, `app/cache.py`) -/

/-- Outcome of one adapter call for one symbol inside the polling loop:
a truthy quote, a falsy result (`if q:` fails), or a raised exception
(caught by the per-symbol `try`/`except`). -/
inductive FetchOutcome (α : Type) where
  | success (q : α)
  | empty
  | raised
deriving DecidableEq

/-- `InMemoryCache.set` (cache.py line 9): `store[symbol.upper()] = q`,
replacing in place or appending, keyed on an already-uppered key. -/
def setKey {α : Type} (c : List (String × α)) (k : String) (q : α) : List (String × α) :=
  if c.any (fun p => p.1 == k) then c.map (fun p => if p.1 == k then (k, q) else p)
  else c ++ [(k, q)]

/-- `store.get(k)` on the backing association list. -/
def getKey {α : Type} (c : List (String × α)) (k : String) : Option α :=
  (c.find? (fun p => p.1 == k)).map (fun p => p.2)

/-- `InMemoryCache.set` with the `symbol.upper()` applied. -/
def cache_set {α : Type} (c : List (String × α)) (sym : String) (q : α) :
    List (String × α) :=
  setKey c (pyUpper sym) q

/-- `InMemoryCache.get` (cache.py line 13). -/
def cache_lookup {α : Type} (c : List (String × α)) (sym : String) : Option α :=
  getKey c (pyUpper sym)

/-- One polling pass of `background_fetcher` (fetcher.py lines 86-110):
iterate the subscription snapshot; a successful truthy quote is written
to the cache; a falsy result or an exception leaves the cache untouched
and the loop continues; at pass end the unchanged subscription list is
saved. -/
def run_pass {α : Type} (f : String → FetchOutcome α) (symbols : List String)
    (c : List (String × α)) : List (String × α) × List String :=
  (symbols.foldl (fun acc s =>
      match f s with
      | .success q => cache_set acc s q
      | .empty => acc
      | .raised => acc) c,
   symbols)

theorem getKey_setKey_self {α : Type} (c : List (String × α)) (k : String) (q : α) :
    getKey (setKey c k q) k = some q := by
  unfold setKey
  by_cases h : c.any (fun p => p.1 == k)
  · rw [if_pos h]
    induction c with
    | nil => cases h
    | cons p cs ih =>
      by_cases hp : p.1 == k
      · simp [getKey, List.find?, hp]
      · have hcs : cs.any (fun p => p.1 == k) := by
          rcases List.any_eq_true.mp h with ⟨x, hx, hxk⟩
          rcases List.mem_cons.mp hx with rfl | hx
          · exact absurd hxk (by simpa using hp)
          · exact List.any_eq_true.mpr ⟨x, hx, hxk⟩
        simpa [getKey, List.find?, hp] using ih hcs
  · rw [if_neg h]
    induction c with
    | nil => simp [getKey, List.find?]
    | cons p cs ih =>
      have hp : (p.1 == k) = false := by
        by_contra hcon
        exact h (List.any_eq_true.mpr ⟨p, List.mem_cons_self _ _, by simpa using hcon⟩)
      have hcs : ¬ cs.any (fun p => p.1 == k) := by
        intro hcon
        rcases List.any_eq_true.mp hcon with ⟨x, hx, hxk⟩
        exact h (List.any_eq_true.mpr ⟨x, List.mem_cons_of_mem _ hx, hxk⟩)
      simpa [getKey, List.find?, hp] using ih hcs

theorem getKey_setKey_other {α : Type} (c : List (String × α)) (k k' : String) (q : α)
    (h : k' ≠ k) : getKey (setKey c k q) k' = getKey c k' := by
  have hkk : k ≠ k' := Ne.symm h
  unfold setKey
  by_cases hc : c.any (fun p => p.1 == k)
  · rw [if_pos hc]
    clear hc
    induction c with
    | nil => rfl
    | cons p cs ih =>
      by_cases hp : p.1 == k
      · have hpk : p.1 = k := by simpa using hp
        have hk' : (k == k') = false := by simp [hkk]
        have hpk' : (p.1 == k') = false := by simp [hpk, hkk]
        simpa [getKey, List.find?, hp, hk', hpk'] using ih
      · by_cases hp' : p.1 == k'
        · simp [getKey, List.find?, hp, hp']
        · simpa [getKey, List.find?, hp, hp'] using ih
  · rw [if_neg hc]
    clear hc
    induction c with
    | nil =>
      have hbk : (k == k') = false := by simp [hkk]
      simp [getKey, List.find?, hbk]
    | cons p cs ih =>
      by_cases hp' : p.1 == k'
      · simp [getKey, List.find?, hp']
      · simpa [getKey, List.find?, hp'] using ih

/-- The per-pass cache invariant: every key either kept its initial
entry untouched — and then no subscribed symbol with that key produced
a successful quote — or holds a quote produced by a successful
subscribed symbol with that key. -/
theorem run_pass_invariant {α : Type} (f : String → FetchOutcome α)
    (symbols : List String) (c : List (String × α)) (k : String) :
    (getKey (run_pass f symbols c).1 k = getKey c k ∧
      ∀ s' ∈ symbols, pyUpper s' = k → ∀ q, f s' ≠ .success q) ∨
    (∃ s' ∈ symbols, pyUpper s' = k ∧
      ∃ q, f s' = .success q ∧ getKey (run_pass f symbols c).1 k = some q) := by
  induction symbols generalizing c with
  | nil => exact Or.inl ⟨rfl, by simp⟩
  | cons s ss ih =>
    rcases hf : f s with q | _ | _
    · have hstep : (run_pass f (s :: ss) c).1 = (run_pass f ss (cache_set c s q)).1 := by
        simp only [run_pass, List.foldl_cons, hf]
      by_cases hk : pyUpper s = k
      · rcases ih (cache_set c s q) with ⟨heq, _⟩ | ⟨s', hs', hk', q', hq', hfin⟩
        · refine Or.inr ⟨s, List.mem_cons_self _ _, hk, q, hf, ?_⟩
          rw [hstep, heq]
          show getKey (setKey c (pyUpper s) q) k = some q
          rw [hk]
          exact getKey_setKey_self c k q
        · exact Or.inr ⟨s', List.mem_cons_of_mem _ hs', hk', q',
            hq', by rw [hstep]; exact hfin⟩
      · rcases ih (cache_set c s q) with ⟨heq, hnone⟩ | ⟨s', hs', hk', q', hq', hfin⟩
        · refine Or.inl ⟨?_, ?_⟩
          · rw [hstep, heq]
            exact getKey_setKey_other c (pyUpper s) k q (fun hcon => hk hcon.symm)
          · intro s'' hs'' hks'' q''
            rcases List.mem_cons.mp hs'' with rfl | hs''
            · exact absurd hks'' hk
            · exact hnone s'' hs'' hks'' q''
        · exact Or.inr ⟨s', List.mem_cons_of_mem _ hs', hk', q',
            hq', by rw [hstep]; exact hfin⟩
    · have hstep : (run_pass f (s :: ss) c).1 = (run_pass f ss c).1 := by
        simp only [run_pass, List.foldl_cons, hf]
      rcases ih c with ⟨heq, hnone⟩ | ⟨s', hs', hk', q', hq', hfin⟩
      · refine Or.inl ⟨by rw [hstep]; exact heq, ?_⟩
        intro s'' hs'' hks'' q''
        rcases List.mem_cons.mp hs'' with rfl | hs''
        · rw [hf]
          intro hcon
          cases hcon
        · exact hnone s'' hs'' hks'' q''
      · exact Or.inr ⟨s', List.mem_cons_of_mem _ hs', hk', q',
          hq', by rw [hstep]; exact hfin⟩
    · have hstep : (run_pass f (s :: ss) c).1 = (run_pass f ss c).1 := by
        simp only [run_pass, List.foldl_cons, hf]
      rcases ih c with ⟨heq, hnone⟩ | ⟨s', hs', hk', q', hq', hfin⟩
      · refine Or.inl ⟨by rw [hstep]; exact heq, ?_⟩
        intro s'' hs'' hks'' q''
        rcases List.mem_cons.mp hs'' with rfl | hs''
        · rw [hf]
          intro hcon
          cases hcon
        · exact hnone s'' hs'' hks'' q''
      · exact Or.inr ⟨s', List.mem_cons_of_mem _ hs', hk', q',
          hq', by rw [hstep]; exact hfin⟩

/-- C9: within one polling pass, failures are isolated.  Every
subscribed symbol whose adapter call succeeds ends the pass with a
cache entry holding a successfully fetched quote for its key; a key can
only appear in the cache if it was there initially or some subscribed
symbol with that key succeeded (so a failing symbol is never added);
and the subscription list saved at pass end is the unchanged input
list. -/
theorem poller_pass_isolation :
    ∀ {α : Type} (f : String → FetchOutcome α) (symbols : List String)
      (c : List (String × α)),
      (∀ s ∈ symbols, ∀ q, f s = .success q →
        ∃ q', cache_lookup (run_pass f symbols c).1 s = some q' ∧
          ∃ s' ∈ symbols, pyUpper s' = pyUpper s ∧ f s' = .success q') ∧
      (∀ t : String, (cache_lookup (run_pass f symbols c).1 t).isSome →
        (cache_lookup c t).isSome ∨
          ∃ s' ∈ symbols, pyUpper s' = pyUpper t ∧ ∃ q, f s' = .success q) ∧
      (run_pass f symbols c).2 = symbols := by
  intro α f symbols c
  refine ⟨?_, ?_, rfl⟩
  · intro s hs q hq
    rcases run_pass_invariant f symbols c (pyUpper s) with ⟨_, hnone⟩ |
      ⟨s', hs', hk', q', hq', hfin⟩
    · exact absurd hq (hnone s hs rfl q)
    · exact ⟨q', hfin, s', hs', hk', hq'⟩
  · intro t ht
    rcases run_pass_invariant f symbols c (pyUpper t) with ⟨heq, _⟩ |
      ⟨s', hs', hk', q', hq', _⟩
    · exact Or.inl (by rw [cache_lookup, ← heq]; exact ht)
    · exact Or.inr ⟨s', hs', hk', q', hq'⟩

/-- The adapter behaviour of scenario S6: `GOOD` always succeeds, `BAD`
always fails. -/
def s6Fetch : String → FetchOutcome Nat :=
  fun s => if s = "GOOD" then .success 7 else .raised

/-- Witness for C9: scenario S6 — after a pass over
`["GOOD", "BAD"]` the cache holds a quote for `GOOD`, `BAD` was never
added, and the subscription list survives the pass unchanged. -/
theorem poller_pass_isolation_witness :
    (∃ q', cache_lookup (run_pass s6Fetch ["GOOD", "BAD"] []).1 "GOOD" = some q' ∧
      ∃ s' ∈ ["GOOD", "BAD"], pyUpper s' = pyUpper "GOOD" ∧ s6Fetch s' = .success q') ∧
    ¬ (cache_lookup (run_pass s6Fetch ["GOOD", "BAD"] []).1 "BAD").isSome ∧
    (run_pass s6Fetch ["GOOD", "BAD"] []).2 = ["GOOD", "BAD"] :=
  ⟨(poller_pass_isolation s6Fetch ["GOOD", "BAD"] []).1 "GOOD" (by decide) 7 rfl,
    by decide,
    (poller_pass_isolation s6Fetch ["GOOD", "BAD"] []).2.2⟩

/-! ## Loading the subscription document (`app/fetcher.py` line 50) -/

/-- The states `subscriptions.json` can be in when the service reads
it.  `nonObject` is a well-formed JSON document that is not an object
(so `.get` raises `AttributeError`); `objNoSymbols` is an object
without a `"symbols"` key. -/
inductive SubFile where
  | absent
  | unreadable
  | invalidJson
  | nonObject
  | objNoSymbols
  | objWithSymbols (xs : List String)
deriving DecidableEq

/-- `os.path.exists(SUB_FILE)`. -/
def file_exists : SubFile → Bool
  | .absent => false
  | _ => true

/-- The body of the `try` block: `open` + `json.load` +
`data.get("symbols", [])`, each step surfacing its Python exception. -/
def read_parse_symbols : SubFile → Except String (List String)
  | .absent => .error "FileNotFoundError"
  | .unreadable => .error "OSError"
  | .invalidJson => .error "JSONDecodeError"
  | .nonObject => .error "AttributeError"
  | .objNoSymbols => .ok []
  | .objWithSymbols xs => .ok xs

/-- `load_subscriptions` (fetcher.py line 50): behind the existence
check, any exception from the body is caught and yields `[]`. -/
def load_subscriptions (f : SubFile) : List String :=
  if file_exists f then
    match read_parse_symbols f with
    | .ok xs => xs
    | .error _ => []
  else []

/-- What the claim says the function returns: the stored symbols when
present, otherwise the empty list. -/
def load_subscriptions_spec : SubFile → List String
  | .objWithSymbols xs => xs
  | _ => []

/-- C10: loading the subscription document is total — for every file
state (absent, unreadable, invalid JSON, non-object JSON, object
without a `"symbols"` key, or object with one) the function returns a
list — the stored symbols when present, otherwise the empty list — and
every exception of the read/parse path is caught rather than
propagated. -/
theorem load_subscriptions_total :
    ∀ f : SubFile, load_subscriptions f = load_subscriptions_spec f := by
  intro f
  cases f <;> rfl

/-- Witness for C10 at two concrete file states. -/
theorem load_subscriptions_total_witness :
    load_subscriptions .invalidJson = load_subscriptions_spec .invalidJson ∧
      load_subscriptions (.objWithSymbols ["INFY.NS"]) =
        load_subscriptions_spec (.objWithSymbols ["INFY.NS"]) :=
  ⟨load_subscriptions_total .invalidJson,
    load_subscriptions_total (.objWithSymbols ["INFY.NS"])⟩

end StockSpec
